import Mathlib

/-!
Verification of the routing-optimization client subsystem of the `tutoriaff`
repository: the nearest-neighbor fallback optimizer, the cost estimator, the
request validation of both optimization endpoints, the shipment-model time
windows, the response mapper, and the service-account JWT construction.

Numbers produced by JavaScript arithmetic are modelled over `ℝ` (idealizing
IEEE doubles, as the specification does); byte- and string-level operations
(base64, JSON serialization, UTF-8) are modelled computably over `List Char`
and `List Nat`.
-/

namespace Tutoriaff

open Real

/-- JavaScript `Math.round`: rounds to the nearest integer, ties toward
positive infinity, i.e. `⌊x + 1/2⌋`. -/
noncomputable def jsRound (x : ℝ) : ℤ := ⌊x + 1/2⌋

/-- JavaScript `(x).toFixed(2)` followed by `parseFloat`, idealized on the
exact decimal value (as the spec does): half-up rounding to two decimal
places. Per ECMA-262, `toFixed` picks the integer `n` minimizing
`|n / 100 - x|` and the larger `n` on ties, which is `⌊x·100 + 1/2⌋`. -/
noncomputable def toFixed2 (x : ℝ) : ℝ := (⌊x * 100 + 1/2⌋ : ℝ) / 100

/-- `ROUTE_OPTIMIZATION_CONFIG.durationPerDelivery` from
`src/app/lib/google-maps.ts` (seconds per delivery). -/
def durationPerDelivery : ℕ := 300

/-- `ROUTE_OPTIMIZATION_CONFIG.costPerKilometer` from
`src/app/lib/google-maps.ts`. -/
noncomputable def costPerKilometer : ℝ := 1.0

/-- `ROUTE_OPTIMIZATION_CONFIG.costPerHour` from
`src/app/lib/google-maps.ts`. -/
noncomputable def costPerHour : ℝ := 0.5

/-- `ROUTE_OPTIMIZATION_CONFIG.timeWindowHours` from
`src/app/lib/google-maps.ts`. -/
def timeWindowHours : ℕ := 8

/-- `calculateRouteCost` from `src/app/lib/google-maps.ts` lines 250-258:
`parseFloat((distanceKm * costPerKilometer + durationHours * costPerHour).toFixed(2))`. -/
noncomputable def calculateRouteCost (distanceMeters durationSeconds : ℝ) : ℝ :=
  let distanceKm := distanceMeters / 1000
  let durationHours := durationSeconds / 3600
  let distanceCost := distanceKm * costPerKilometer
  let timeCost := durationHours * costPerHour
  toFixed2 (distanceCost + timeCost)

/-- The cost formula exactly as the spec words it (§4.7): `cost = distanceKm *
costPerKm + durationHours * costPerHour`, rounded to 2 decimal places with
standard half-up rounding on the decimal representation, with the documented
coefficients 1.0 per km and 0.5 per hour. -/
noncomputable def specRouteCost (distanceMeters durationSeconds : ℝ) : ℝ :=
  (⌊(distanceMeters / 1000 * 1.0 + durationSeconds / 3600 * 0.5) * 100 + 1/2⌋ : ℝ) / 100

/-- Claim C4: for every distance in meters and duration in seconds,
`calculateRouteCost` returns `(distance/1000) * 1.0 + (duration/3600) * 0.5`
rounded to 2 decimal places with half-up rounding on the decimal
representation; in particular `calculateRouteCost 10000 3600 = 10.50`. -/
theorem C4_calculateRouteCost :
    (∀ d t : ℝ, calculateRouteCost d t = specRouteCost d t) ∧
    calculateRouteCost 10000 3600 = 10.50 := by
  constructor
  · intro d t
    simp [calculateRouteCost, specRouteCost, toFixed2, costPerKilometer, costPerHour]
  · have harg : ((10000 : ℝ) / 1000 * costPerKilometer + 3600 / 3600 * costPerHour) = 10.5 := by
      norm_num [costPerKilometer, costPerHour]
    have hfloor : ⌊(10.5 : ℝ) * 100 + 1/2⌋ = 1050 := by
      rw [Int.floor_eq_iff]
      norm_num
    simp only [calculateRouteCost, toFixed2]
    rw [harg, hfloor]
    norm_num

/-! ## Geometry: `calculateDistance` from `src/app/api/optimize-simple/route.ts` -/

/-- JavaScript `Math.atan2(y, x)` over `ℝ` (finite arguments). -/
noncomputable def atan2 (y x : ℝ) : ℝ :=
  if 0 < x then arctan (y / x)
  else if x < 0 ∧ 0 ≤ y then arctan (y / x) + π
  else if x < 0 ∧ y < 0 then arctan (y / x) - π
  else if x = 0 ∧ 0 < y then π / 2
  else if x = 0 ∧ y < 0 then -(π / 2)
  else 0

/-- A `{lat, lng}` pair (the `Location` interface of `src/types/delivery.ts`). -/
structure Location where
  lat : ℝ
  lng : ℝ

/-- A delivery as far as the optimization endpoints inspect it: its business
code, a representative further business field, and the optional coordinates
(`lat?: number; lng?: number` in `src/types/delivery.ts`). -/
structure Delivery where
  codigo : String
  cliente : String
  lat : Option ℝ
  lng : Option ℝ
deriving Inhabited

/-- JS falsiness of an optional numeric field (`!d.lat`): `undefined` and `0`
are falsy (NaN is not representable in this idealization). -/
def falsyNum (o : Option ℝ) : Prop := o = none ∨ o = some 0

/-- `{ lat: delivery.lat!, lng: delivery.lng! }` — the non-null assertions the
optimizer applies after validation has ensured the coordinates are present. -/
noncomputable def locOf (d : Delivery) : Location := ⟨d.lat.getD 0, d.lng.getD 0⟩

/-- The haversine distance function `calculateDistance` of
`src/app/api/optimize-simple/route.ts` lines 59-75 (meters, Earth radius
6,371,000 m). -/
noncomputable def calculateDistance (fromLoc toLoc : Location) : ℝ :=
  let R : ℝ := 6371000
  let lat1 := fromLoc.lat * π / 180
  let lat2 := toLoc.lat * π / 180
  let deltaLat := (toLoc.lat - fromLoc.lat) * π / 180
  let deltaLng := (toLoc.lng - fromLoc.lng) * π / 180
  let a := Real.sin (deltaLat / 2) * Real.sin (deltaLat / 2) +
    Real.cos lat1 * Real.cos lat2 * Real.sin (deltaLng / 2) * Real.sin (deltaLng / 2)
  let c := 2 * atan2 (Real.sqrt a) (Real.sqrt (1 - a))
  R * c

/-! ## The nearest-neighbor loop (`optimize-simple` lines 52-133) -/

/-- An optimized delivery: the spread `{...nextDelivery, orderIndex, ...}`
is modelled by embedding the original delivery as a field. -/
structure OptimizedDelivery where
  delivery : Delivery
  orderIndex : ℕ
  distanceFromPrevious : Option ℤ := none
  estimatedArrival : Option String := none
deriving Inhabited

/-- The loop comparison `distance < nearestDistance`, where `none` stands for
the initial `Infinity` sentinel (every finite distance is below it). -/
def ltOptInf (x : ℝ) : Option ℝ → Prop
  | none => True
  | some b => x < b

open Classical in
/-- The inner `for` loop of the nearest-neighbor search (lines 83-94):
scan `unvisited` keeping the index and distance of the closest delivery so
far; `i` is the index of the head of the remaining list. -/
noncomputable def findNearestAux (cur : Location) :
    List Delivery → ℕ → ℕ × Option ℝ → ℕ × Option ℝ
  | [], _, acc => acc
  | d :: rest, i, (bi, bd) =>
    let dist := calculateDistance cur (locOf d)
    if ltOptInf dist bd then findNearestAux cur rest (i + 1) (i, some dist)
    else findNearestAux cur rest (i + 1) (bi, bd)

/-- The full inner scan, started with `nearestIndex = 0` and
`nearestDistance = Infinity` (line 79-80). -/
noncomputable def findNearest (cur : Location) (unvisited : List Delivery) : ℕ × Option ℝ :=
  findNearestAux cur unvisited 0 (0, none)

theorem findNearestAux_fst_bound (cur : Location) :
    ∀ (l : List Delivery) (i bi : ℕ) (bd : Option ℝ),
      (findNearestAux cur l i (bi, bd)).1 = bi ∨
      (i ≤ (findNearestAux cur l i (bi, bd)).1 ∧
        (findNearestAux cur l i (bi, bd)).1 < i + l.length) := by
  intro l
  induction l with
  | nil => intro i bi bd; left; rfl
  | cons d rest ih =>
    intro i bi bd
    simp only [findNearestAux]
    by_cases hc : ltOptInf (calculateDistance cur (locOf d)) bd
    · rw [if_pos hc]
      rcases ih (i + 1) i (some (calculateDistance cur (locOf d))) with h | h
      · right; rw [h]; simp
      · right
        constructor
        · omega
        · simpa [Nat.add_assoc, Nat.add_comm 1 rest.length] using h.2
    · rw [if_neg hc]
      rcases ih (i + 1) bi bd with h | h
      · left; exact h
      · right
        constructor
        · omega
        · simpa [Nat.add_assoc, Nat.add_comm 1 rest.length] using h.2

theorem findNearest_fst_lt (cur : Location) (l : List Delivery) (hl : l ≠ []) :
    (findNearest cur l).1 < l.length := by
  match l, hl with
  | d :: rest, _ =>
    unfold findNearest
    simp only [findNearestAux, ltOptInf, if_pos trivial, Nat.zero_add]
    rcases findNearestAux_fst_bound cur rest 1 0 (some (calculateDistance cur (locOf d)))
      with h | h
    · rw [h]; simp
    · simp only [List.length_cons]
      omega

open Classical in
/-- The `while` loop of the nearest-neighbor algorithm (lines 78-107): state is
`(unvisited, optimized, currentLocation, totalDistance)`; each iteration picks
the nearest unvisited delivery, appends it with `orderIndex` and rounded
`distanceFromPrevious`, and accrues the unrounded distance. -/
noncomputable def nnLoop (unvisited : List Delivery) (optimized : List OptimizedDelivery)
    (cur : Location) (total : ℝ) : List OptimizedDelivery × Location × ℝ :=
  if h : unvisited = [] then (optimized, cur, total)
  else
    let nr := findNearest cur unvisited
    let next := unvisited.getD nr.1 default
    nnLoop (unvisited.eraseIdx nr.1)
      (optimized ++ [{ delivery := next, orderIndex := optimized.length + 1,
                       distanceFromPrevious := some (jsRound (nr.2.getD 0)) }])
      (locOf next) (total + nr.2.getD 0)
termination_by unvisited.length
decreasing_by
  have hlt := findNearest_fst_lt cur unvisited h
  simp only [List.length_eraseIdx, if_pos hlt]
  omega

/-- The `OptimizedRoute` result shape of `src/types/delivery.ts` as produced
by the simple endpoint. -/
structure OptimizedRoute where
  optimizedDeliveries : List OptimizedDelivery
  totalDistanceMeters : ℤ
  totalDurationSeconds : ℤ
  estimatedCost : ℝ

/-- Lines 52-133 of `src/app/api/optimize-simple/route.ts` after validation:
run the nearest-neighbor loop from the warehouse, add the return leg to the
total distance, estimate duration (30 km/h travel plus 300 s per delivery)
and cost, and round the total distance to meters. -/
noncomputable def nnOptimize (deliveries : List Delivery) (warehouseLocation : Location) :
    OptimizedRoute :=
  let r := nnLoop deliveries [] warehouseLocation 0
  let optimized := r.1
  let currentLocation := r.2.1
  let returnDistance := calculateDistance currentLocation warehouseLocation
  let totalDistance := r.2.2 + returnDistance
  let travelTimeSeconds := totalDistance / 1000 / 30 * 3600
  let deliveryTimeSeconds := (optimized.length : ℝ) * 300
  let totalDurationSeconds := jsRound (travelTimeSeconds + deliveryTimeSeconds)
  let estimatedCost := calculateRouteCost totalDistance (totalDurationSeconds : ℝ)
  { optimizedDeliveries := optimized,
    totalDistanceMeters := jsRound totalDistance,
    totalDurationSeconds := totalDurationSeconds,
    estimatedCost := estimatedCost }

/-! ## The simple endpoint handler -/

/-- The network calls the handlers can issue. -/
inductive NetCall
  | tokenExchange
  | optimizeTours
deriving DecidableEq

/-- Responses of the simple endpoint: an HTTP 400 with its error message, or
an HTTP 200 with the optimized route. -/
inductive SimpleResponse
  | badRequest (error : String)
  | ok (route : OptimizedRoute)

/-- The parsed request body `{ deliveries, warehouseLocation, startTime? }`
(start time in epoch milliseconds). -/
structure OptimizeRequestBody where
  deliveries : List Delivery
  warehouseLocation : Location
  startTimeMs : Option ℕ := none

open Classical in
/-- `POST /api/optimize-simple` (lines 19-146): validations, then the
nearest-neighbor optimization. The first component is the trace of network
calls issued before returning — this handler issues none. The
`getGoogleMapsApiKey()` call at line 21 only reads configuration (it throws,
with no network activity, when the key is unset); the environment is
modelled as configured. -/
noncomputable def optimizeSimplePOST (body : OptimizeRequestBody) :
    List NetCall × SimpleResponse :=
  if body.deliveries.length = 0 then
    ([], .badRequest "Se requiere un array de entregas no vacío")
  else if 0 < (body.deliveries.filter fun d => decide (falsyNum d.lat ∨ falsyNum d.lng)).length then
    ([], .badRequest "Todas las entregas deben tener coordenadas (lat, lng)")
  else if body.warehouseLocation.lat = 0 ∨ body.warehouseLocation.lng = 0 then
    ([], .badRequest "Se requiere la ubicación del almacén")
  else
    ([], .ok (nnOptimize body.deliveries body.warehouseLocation))

/-! ## Behavioral lemmas for the nearest-neighbor loop -/

/-- Distance from `cur` to the `j`-th element of `l`, as the loop computes it. -/
noncomputable def distTo (cur : Location) (l : List Delivery) (j : ℕ) : ℝ :=
  calculateDistance cur (locOf (l.getD j default))

theorem findNearestAux_spec (cur : Location) :
    ∀ (l : List Delivery) (i bi : ℕ) (bd : ℝ),
      (findNearestAux cur l i (bi, some bd) = (bi, some bd) ∧
        ∀ j, j < l.length → bd ≤ distTo cur l j) ∨
      (∃ k, k < l.length ∧
        findNearestAux cur l i (bi, some bd) = (i + k, some (distTo cur l k)) ∧
        distTo cur l k < bd ∧
        (∀ j, j < l.length → distTo cur l k ≤ distTo cur l j) ∧
        (∀ j, j < k → distTo cur l k < distTo cur l j)) := by
  intro l
  induction l with
  | nil =>
    intro i bi bd
    left
    refine ⟨rfl, ?_⟩
    intro j hj
    simp at hj
  | cons d rest ih =>
    intro i bi bd
    have hd0 : distTo cur (d :: rest) 0 = calculateDistance cur (locOf d) := by
      simp [distTo]
    have hdsucc : ∀ j, distTo cur (d :: rest) (j + 1) = distTo cur rest j := by
      intro j; simp [distTo]
    by_cases hc : calculateDistance cur (locOf d) < bd
    · have hstep : findNearestAux cur (d :: rest) i (bi, some bd) =
          findNearestAux cur rest (i + 1) (i, some (calculateDistance cur (locOf d))) := by
      -- first scan step replaces the accumulator
        simp [findNearestAux, ltOptInf, hc]
      rcases ih (i + 1) i (calculateDistance cur (locOf d)) with
        ⟨heq, hmin⟩ | ⟨k, hk, heq, hlt, hmin, hfirst⟩
      · right
        refine ⟨0, by simp, ?_, ?_, ?_, ?_⟩
        · rw [hstep, heq, hd0, Nat.add_zero]
        · rw [hd0]; exact hc
        · intro j hj
          cases j with
          | zero => exact le_refl _
          | succ j => rw [hd0, hdsucc]; exact hmin j (by simpa using hj)
        · intro j hj; exact absurd hj (Nat.not_lt_zero j)
      · right
        refine ⟨k + 1, by simpa using hk, ?_, ?_, ?_, ?_⟩
        · rw [hstep, heq, hdsucc, show i + 1 + k = i + (k + 1) by omega]
        · rw [hdsucc]; exact lt_trans hlt hc
        · intro j hj
          cases j with
          | zero => rw [hd0, hdsucc]; exact le_of_lt hlt
          | succ j => rw [hdsucc, hdsucc]; exact hmin j (by simpa using hj)
        · intro j hj
          cases j with
          | zero => rw [hd0, hdsucc]; exact hlt
          | succ j => rw [hdsucc, hdsucc]; exact hfirst j (by omega)
    · have hstep : findNearestAux cur (d :: rest) i (bi, some bd) =
          findNearestAux cur rest (i + 1) (bi, some bd) := by
        simp [findNearestAux, ltOptInf, hc]
      rcases ih (i + 1) bi bd with
        ⟨heq, hmin⟩ | ⟨k, hk, heq, hlt, hmin, hfirst⟩
      · left
        refine ⟨by rw [hstep, heq], ?_⟩
        intro j hj
        cases j with
        | zero => rw [hd0]; exact le_of_not_lt hc
        | succ j => rw [hdsucc]; exact hmin j (by simpa using hj)
      · right
        refine ⟨k + 1, by simpa using hk, ?_, ?_, ?_, ?_⟩
        · rw [hstep, heq, hdsucc, show i + 1 + k = i + (k + 1) by omega]
        · rw [hdsucc]; exact hlt
        · intro j hj
          cases j with
          | zero => rw [hd0, hdsucc]; exact le_of_lt (lt_of_lt_of_le hlt (le_of_not_lt hc))
          | succ j => rw [hdsucc, hdsucc]; exact hmin j (by simpa using hj)
        · intro j hj
          cases j with
          | zero => rw [hd0, hdsucc]; exact lt_of_lt_of_le hlt (le_of_not_lt hc)
          | succ j => rw [hdsucc, hdsucc]; exact hfirst j (by omega)

theorem findNearest_spec (cur : Location) (l : List Delivery) (hl : l ≠ []) :
    ∃ k, k < l.length ∧
      findNearest cur l = (k, some (distTo cur l k)) ∧
      (∀ j, j < l.length → distTo cur l k ≤ distTo cur l j) ∧
      (∀ j, j < k → distTo cur l k < distTo cur l j) := by
  match l, hl with
  | d :: rest, _ =>
    have hstep : findNearest cur (d :: rest) =
        findNearestAux cur rest 1 (0, some (calculateDistance cur (locOf d))) := by
      simp [findNearest, findNearestAux, ltOptInf]
    have hd0 : distTo cur (d :: rest) 0 = calculateDistance cur (locOf d) := by
      simp [distTo]
    have hdsucc : ∀ j, distTo cur (d :: rest) (j + 1) = distTo cur rest j := by
      intro j; simp [distTo]
    rcases findNearestAux_spec cur rest 1 0 (calculateDistance cur (locOf d)) with
      ⟨heq, hmin⟩ | ⟨k, hk, heq, hlt, hmin, hfirst⟩
    · refine ⟨0, by simp, ?_, ?_, ?_⟩
      · rw [hstep, heq, hd0]
      · intro j hj
        cases j with
        | zero => exact le_refl _
        | succ j => rw [hd0, hdsucc]; exact hmin j (by simpa using hj)
      · intro j hj; exact absurd hj (Nat.not_lt_zero j)
    · refine ⟨k + 1, by simpa using hk, ?_, ?_, ?_⟩
      · rw [hstep, heq, hdsucc, show 1 + k = k + 1 by omega]
      · intro j hj
        cases j with
        | zero => rw [hd0, hdsucc]; exact le_of_lt hlt
        | succ j => rw [hdsucc, hdsucc]; exact hmin j (by simpa using hj)
      · intro j hj
        cases j with
        | zero => rw [hd0, hdsucc]; exact hlt
        | succ j => rw [hdsucc, hdsucc]; exact hfirst j (by omega)

theorem getD_cons_eraseIdx_perm :
    ∀ (l : List Delivery) (k : ℕ), k < l.length →
      (l.getD k default :: l.eraseIdx k).Perm l := by
  intro l
  induction l with
  | nil => intro k hk; simp at hk
  | cons d rest ih =>
    intro k hk
    cases k with
    | zero => simp
    | succ k =>
      have hk' : k < rest.length := by simpa using hk
      simp only [List.getD_cons_succ, List.eraseIdx_cons_succ]
      exact (List.Perm.swap d (rest.getD k default) _).trans ((ih k hk').cons d)

/-- The leg-structure predicate: each produced stop's `distanceFromPrevious`
is the rounded haversine distance from the previous location. -/
def chainFrom : Location → List OptimizedDelivery → Prop
  | _, [] => True
  | cur, o :: rest =>
    o.distanceFromPrevious = some (jsRound (calculateDistance cur (locOf o.delivery))) ∧
    chainFrom (locOf o.delivery) rest

/-- Sum of the (unrounded) leg distances along the produced sequence. -/
noncomputable def chainSum : Location → List OptimizedDelivery → ℝ
  | _, [] => 0
  | cur, o :: rest => calculateDistance cur (locOf o.delivery) + chainSum (locOf o.delivery) rest

/-- Location of the last produced stop (the start location when none). -/
noncomputable def chainLast : Location → List OptimizedDelivery → Location
  | cur, [] => cur
  | _, o :: rest => chainLast (locOf o.delivery) rest

theorem nnLoop_step (cur : Location) (l : List Delivery) (hl : l ≠ [])
    (k : ℕ) (D : ℝ) (hfind : findNearest cur l = (k, some D))
    (acc : List OptimizedDelivery) (t : ℝ) :
    nnLoop l acc cur t =
      nnLoop (l.eraseIdx k)
        (acc ++ [{ delivery := l.getD k default, orderIndex := acc.length + 1,
                   distanceFromPrevious := some (jsRound D) }])
        (locOf (l.getD k default)) (t + D) := by
  rw [nnLoop]
  rw [dif_neg hl]
  simp [hfind]

theorem nnLoop_spec :
    ∀ (n : ℕ) (l : List Delivery) (cur : Location) (acc : List OptimizedDelivery) (t : ℝ),
      l.length = n →
      ∃ tail,
        nnLoop l acc cur t = (acc ++ tail, chainLast cur tail, t + chainSum cur tail) ∧
        (tail.map (·.delivery)).Perm l ∧
        tail.map (·.orderIndex) = List.range' (acc.length + 1) l.length ∧
        chainFrom cur tail := by
  intro n
  induction n with
  | zero =>
    intro l cur acc t hlen
    have hl : l = [] := List.length_eq_zero.mp hlen
    subst hl
    refine ⟨[], ?_, by simp, by simp, trivial⟩
    rw [nnLoop]
    simp [chainLast, chainSum]
  | succ n ih =>
    intro l cur acc t hlen
    have hl : l ≠ [] := by intro h; subst h; simp at hlen
    obtain ⟨k, hk, hfind, hmin, hfirst⟩ := findNearest_spec cur l hl
    have hstep := nnLoop_step cur l hl k (distTo cur l k) hfind acc t
    have hlen' : (l.eraseIdx k).length = n := by
      have := List.length_eraseIdx_add_one hk
      omega
    obtain ⟨tail', heq', hperm', hidx', hchain'⟩ :=
      ih (l.eraseIdx k) (locOf (l.getD k default))
        (acc ++ [{ delivery := l.getD k default, orderIndex := acc.length + 1,
                   distanceFromPrevious := some (jsRound (distTo cur l k)) }])
        (t + distTo cur l k) hlen'
    refine ⟨{ delivery := l.getD k default, orderIndex := acc.length + 1,
              distanceFromPrevious := some (jsRound (distTo cur l k)) } :: tail',
           ?_, ?_, ?_, ?_⟩
    · rw [hstep, heq']
      simp [chainSum, chainLast, distTo, add_assoc]
    · simp only [List.map_cons]
      exact (hperm'.cons _).trans (getD_cons_eraseIdx_perm l k hk)
    · simp only [List.map_cons, hidx', List.length_append, List.length_cons,
        List.length_nil, hlen', hlen]
      rw [List.range'_succ]
    · exact ⟨rfl, hchain'⟩

/-- Claim C5: at every iteration of the nearest-neighbor loop (any current
location, any nonempty unvisited list, any accumulated state), the stop
appended next is one at minimal haversine distance from the current location
among the unvisited stops, and among the minimizers the one earliest in input
order is chosen (every strictly earlier stop is strictly farther). The
optimizer is a pure function of its input, so identical input yields
identical output. -/
theorem C5_nearest_selection (cur : Location) (l : List Delivery) (hl : l ≠ []) :
    ∃ k, k < l.length ∧
      findNearest cur l = (k, some (distTo cur l k)) ∧
      (∀ j, j < l.length → distTo cur l k ≤ distTo cur l j) ∧
      (∀ j, j < k → distTo cur l k < distTo cur l j) ∧
      ∀ (acc : List OptimizedDelivery) (t : ℝ),
        nnLoop l acc cur t =
          nnLoop (l.eraseIdx k)
            (acc ++ [{ delivery := l.getD k default, orderIndex := acc.length + 1,
                       distanceFromPrevious := some (jsRound (distTo cur l k)) }])
            (locOf (l.getD k default)) (t + distTo cur l k) := by
  obtain ⟨k, hk, hfind, hmin, hfirst⟩ := findNearest_spec cur l hl
  exact ⟨k, hk, hfind, hmin, hfirst, fun acc t => nnLoop_step cur l hl k _ hfind acc t⟩

/-- Witness for C5 at a concrete one-stop input. -/
theorem C5_nearest_selection_witness :
    ([(⟨"A", "cliente", some 1, some 2⟩ : Delivery)] : List Delivery) ≠ [] ∧
    (∃ k, k < ([(⟨"A", "cliente", some 1, some 2⟩ : Delivery)] : List Delivery).length ∧
      findNearest ⟨3, 4⟩ [⟨"A", "cliente", some 1, some 2⟩] =
        (k, some (distTo ⟨3, 4⟩ [⟨"A", "cliente", some 1, some 2⟩] k)) ∧
      (∀ j, j < ([(⟨"A", "cliente", some 1, some 2⟩ : Delivery)] : List Delivery).length →
        distTo ⟨3, 4⟩ [⟨"A", "cliente", some 1, some 2⟩] k ≤
          distTo ⟨3, 4⟩ [⟨"A", "cliente", some 1, some 2⟩] j) ∧
      (∀ j, j < k → distTo ⟨3, 4⟩ [⟨"A", "cliente", some 1, some 2⟩] k <
          distTo ⟨3, 4⟩ [⟨"A", "cliente", some 1, some 2⟩] j) ∧
      ∀ (acc : List OptimizedDelivery) (t : ℝ),
        nnLoop [⟨"A", "cliente", some 1, some 2⟩] acc ⟨3, 4⟩ t =
          nnLoop (([(⟨"A", "cliente", some 1, some 2⟩ : Delivery)] : List Delivery).eraseIdx k)
            (acc ++ [{ delivery := ([(⟨"A", "cliente", some 1, some 2⟩ : Delivery)] :
                          List Delivery).getD k default,
                       orderIndex := acc.length + 1,
                       distanceFromPrevious :=
                         some (jsRound (distTo ⟨3, 4⟩ [⟨"A", "cliente", some 1, some 2⟩] k)) }])
            (locOf (([(⟨"A", "cliente", some 1, some 2⟩ : Delivery)] : List Delivery).getD k default))
            (t + distTo ⟨3, 4⟩ [⟨"A", "cliente", some 1, some 2⟩] k)) :=
  ⟨by simp, C5_nearest_selection ⟨3, 4⟩ [⟨"A", "cliente", some 1, some 2⟩] (by simp)⟩

/-- Claim C6: for every non-empty input, the nearest-neighbor output is a
permutation of the input stops, its `orderIndex` values are exactly
`1..N` in order (no gaps or repeats), each `distanceFromPrevious` is the
leg distance rounded to the nearest meter (`chainFrom`), and the total
distance rounds the sum of the visited legs plus the final return leg to the
depot — which is not represented as an output stop (the output has exactly
`N` stops by the permutation). -/
theorem C6_nn_output_invariants (deliveries : List Delivery) (wh : Location)
    (_hne : deliveries ≠ []) :
    ((nnOptimize deliveries wh).optimizedDeliveries.map (·.delivery)).Perm deliveries ∧
    (nnOptimize deliveries wh).optimizedDeliveries.map (·.orderIndex) =
      List.range' 1 deliveries.length ∧
    chainFrom wh (nnOptimize deliveries wh).optimizedDeliveries ∧
    (nnOptimize deliveries wh).totalDistanceMeters =
      jsRound (chainSum wh (nnOptimize deliveries wh).optimizedDeliveries +
        calculateDistance (chainLast wh (nnOptimize deliveries wh).optimizedDeliveries) wh) := by
  obtain ⟨tail, heq, hperm, hidx, hchain⟩ :=
    nnLoop_spec deliveries.length deliveries wh [] 0 rfl
  have hopt : (nnOptimize deliveries wh).optimizedDeliveries = tail := by
    simp [nnOptimize, heq]
  have htot : (nnOptimize deliveries wh).totalDistanceMeters =
      jsRound (chainSum wh tail + calculateDistance (chainLast wh tail) wh) := by
    simp [nnOptimize, heq, add_comm]
  refine ⟨?_, ?_, ?_, ?_⟩
  · rw [hopt]; exact hperm
  · rw [hopt, hidx]; simp
  · rw [hopt]; exact hchain
  · rw [hopt, htot]

/-- Witness for C6 at a concrete one-stop input. -/
theorem C6_nn_output_invariants_witness :
    ([(⟨"A", "cliente", some 1, some 2⟩ : Delivery)] : List Delivery) ≠ [] ∧
    (((nnOptimize [⟨"A", "cliente", some 1, some 2⟩] ⟨3, 4⟩).optimizedDeliveries.map
        (·.delivery)).Perm [⟨"A", "cliente", some 1, some 2⟩] ∧
      (nnOptimize [⟨"A", "cliente", some 1, some 2⟩] ⟨3, 4⟩).optimizedDeliveries.map
          (·.orderIndex) =
        List.range' 1 ([(⟨"A", "cliente", some 1, some 2⟩ : Delivery)] : List Delivery).length ∧
      chainFrom ⟨3, 4⟩
        (nnOptimize [⟨"A", "cliente", some 1, some 2⟩] ⟨3, 4⟩).optimizedDeliveries ∧
      (nnOptimize [⟨"A", "cliente", some 1, some 2⟩] ⟨3, 4⟩).totalDistanceMeters =
        jsRound (chainSum ⟨3, 4⟩
            (nnOptimize [⟨"A", "cliente", some 1, some 2⟩] ⟨3, 4⟩).optimizedDeliveries +
          calculateDistance
            (chainLast ⟨3, 4⟩
              (nnOptimize [⟨"A", "cliente", some 1, some 2⟩] ⟨3, 4⟩).optimizedDeliveries)
            ⟨3, 4⟩)) :=
  ⟨by simp, C6_nn_output_invariants [⟨"A", "cliente", some 1, some 2⟩] ⟨3, 4⟩ (by simp)⟩

/-! ## Geometry facts needed for the concrete claims -/

theorem atan2_zero_of_pos {x : ℝ} (hx : 0 < x) : atan2 0 x = 0 := by
  unfold atan2
  rw [if_pos hx]
  simp

theorem calculateDistance_self (p : Location) : calculateDistance p p = 0 := by
  unfold calculateDistance
  simp only [sub_self, zero_mul, zero_div, Real.sin_zero, mul_zero, zero_add, add_zero,
    Real.sqrt_zero, sub_zero, Real.sqrt_one]
  rw [atan2_zero_of_pos one_pos]
  ring

theorem nnLoop_nil (acc : List OptimizedDelivery) (cur : Location) (t : ℝ) :
    nnLoop [] acc cur t = (acc, cur, t) := by
  rw [nnLoop]
  simp

theorem jsRound_eq_int (n : ℤ) (x : ℝ) (h : x = (n : ℝ)) : jsRound x = n := by
  unfold jsRound
  rw [h, Int.floor_eq_iff]
  constructor
  · linarith
  · linarith

theorem atan2_sqrt_mono {a b : ℝ} (ha : 0 ≤ a) (hab : a < b) (hb : b < 1) :
    atan2 (Real.sqrt a) (Real.sqrt (1 - a)) < atan2 (Real.sqrt b) (Real.sqrt (1 - b)) := by
  have ha1 : a < 1 := lt_trans hab hb
  have hpa : 0 < Real.sqrt (1 - a) := Real.sqrt_pos.mpr (by linarith)
  have hpb : 0 < Real.sqrt (1 - b) := Real.sqrt_pos.mpr (by linarith)
  unfold atan2
  rw [if_pos hpa, if_pos hpb]
  apply Real.arctan_strictMono
  rw [div_lt_div_iff₀ hpa hpb]
  have h1 : Real.sqrt a < Real.sqrt b := Real.sqrt_lt_sqrt ha hab
  have h2 : Real.sqrt (1 - b) < Real.sqrt (1 - a) := Real.sqrt_lt_sqrt (by linarith) (by linarith)
  have h3 : 0 ≤ Real.sqrt a := Real.sqrt_nonneg a
  have h4 : 0 < Real.sqrt b := Real.sqrt_pos.mpr (by linarith)
  nlinarith [h1, h2, h3, h4, Real.sqrt_nonneg (1 - b)]

theorem calculateDistance_from_origin_lng (g : ℝ) :
    calculateDistance ⟨0, 0⟩ ⟨0, g⟩ =
      6371000 * (2 * atan2 (Real.sqrt (Real.sin (g * π / 360) * Real.sin (g * π / 360)))
        (Real.sqrt (1 - Real.sin (g * π / 360) * Real.sin (g * π / 360)))) := by
  simp only [calculateDistance]
  norm_num
  ring_nf

theorem distA_lt_distB :
    calculateDistance ⟨0, 0⟩ ⟨0, 1⟩ < calculateDistance ⟨0, 0⟩ ⟨0, 2⟩ := by
  have hpi := Real.pi_pos
  have h1 := calculateDistance_from_origin_lng 1
  have h2 := calculateDistance_from_origin_lng 2
  have e1 : (1 : ℝ) * π / 360 = π / 360 := by ring
  have e2 : (2 : ℝ) * π / 360 = π / 180 := by ring
  rw [e1] at h1
  rw [e2] at h2
  rw [h1, h2]
  have hx : (0 : ℝ) < π / 360 := by linarith
  have hxy : π / 360 < π / 180 := by linarith
  have hy2 : π / 180 < π / 2 := by linarith
  have hsx : 0 < Real.sin (π / 360) := Real.sin_pos_of_pos_of_lt_pi hx (by linarith)
  have hmono : Real.sin (π / 360) < Real.sin (π / 180) :=
    Real.strictMonoOn_sin ⟨by linarith, by linarith⟩ ⟨by linarith, by linarith⟩ hxy
  have hs1 : Real.sin (π / 180) < 1 := by
    have hm := Real.strictMonoOn_sin (a := π / 180) (b := π / 2)
      ⟨by linarith, by linarith⟩ ⟨by linarith, le_refl _⟩ hy2
    rwa [Real.sin_pi_div_two] at hm
  have hlt : atan2 (Real.sqrt (Real.sin (π / 360) * Real.sin (π / 360)))
      (Real.sqrt (1 - Real.sin (π / 360) * Real.sin (π / 360))) <
      atan2 (Real.sqrt (Real.sin (π / 180) * Real.sin (π / 180)))
      (Real.sqrt (1 - Real.sin (π / 180) * Real.sin (π / 180))) := by
    apply atan2_sqrt_mono
    · exact mul_self_nonneg _
    · nlinarith [hsx, hmono]
    · nlinarith [hs1, hsx, hmono]
  linarith

/-- Claim C2: with depot `(0,0)` and stops A at `(0,1)`, B at `(0,2)` given in
input order `[A, B]`, the nearest-neighbor optimizer visits A before B (A is
strictly closer), producing `orderIndex` 1 for A and 2 for B. The coordinates
feed the optimization loop directly; the endpoint-level rejection of literal
zero coordinates is the separate claim C10. -/
theorem C2_two_stops :
    ((nnOptimize [⟨"A", "cl", some 0, some 1⟩, ⟨"B", "cl", some 0, some 2⟩]
        ⟨0, 0⟩).optimizedDeliveries.map fun o => (o.delivery.codigo, o.orderIndex)) =
      [("A", 1), ("B", 2)] := by
  have hBA : ¬ (calculateDistance ⟨0, 0⟩ ⟨0, 2⟩ < calculateDistance ⟨0, 0⟩ ⟨0, 1⟩) :=
    not_lt.mpr (le_of_lt distA_lt_distB)
  simp [nnOptimize, nnLoop, findNearest, findNearestAux, ltOptInf, locOf, hBA]

/-- Claim C9: with depot `(41.6523, -4.7245)` and a single stop at exactly the
same coordinates, the simple endpoint succeeds and returns total distance 0,
`distanceFromPrevious = 0` for the stop, and total duration exactly the fixed
300-second per-stop service time. -/
theorem C9_single_stop_zero :
    ∃ route,
      (optimizeSimplePOST
          { deliveries := [⟨"E1", "cliente", some 41.6523, some (-4.7245)⟩],
            warehouseLocation := ⟨41.6523, -4.7245⟩ }).2 = .ok route ∧
      route.totalDistanceMeters = 0 ∧
      route.optimizedDeliveries.map (·.distanceFromPrevious) = [some 0] ∧
      route.totalDurationSeconds = 300 := by
  have hloc : locOf ⟨"E1", "cliente", some 41.6523, some (-4.7245)⟩ =
      (⟨41.6523, -4.7245⟩ : Location) := by simp [locOf]
  have hself := calculateDistance_self (⟨41.6523, -4.7245⟩ : Location)
  have hjr0 : jsRound 0 = 0 := jsRound_eq_int 0 0 (by norm_num)
  have hfind : findNearest ⟨41.6523, -4.7245⟩
      [⟨"E1", "cliente", some 41.6523, some (-4.7245)⟩] = (0, some 0) := by
    simp [findNearest, findNearestAux, ltOptInf, hloc, hself]
  have hrun : nnLoop [⟨"E1", "cliente", some 41.6523, some (-4.7245)⟩] []
      ⟨41.6523, -4.7245⟩ 0 =
      ([{ delivery := ⟨"E1", "cliente", some 41.6523, some (-4.7245)⟩, orderIndex := 1,
          distanceFromPrevious := some 0 }], ⟨41.6523, -4.7245⟩, 0) := by
    have h := nnLoop_step ⟨41.6523, -4.7245⟩
      [⟨"E1", "cliente", some 41.6523, some (-4.7245)⟩] (by simp) 0 0 hfind [] 0
    simpa [hloc, nnLoop_nil, hjr0] using h
  refine ⟨nnOptimize [⟨"E1", "cliente", some 41.6523, some (-4.7245)⟩]
      ⟨41.6523, -4.7245⟩, ?_, ?_, ?_, ?_⟩
  · simp only [optimizeSimplePOST]
    norm_num [falsyNum, List.filter_cons]
    simp
  · simp [nnOptimize, hrun, hself, hjr0]
  · simp [nnOptimize, hrun]
  · simp [nnOptimize, hrun, hself]
    exact jsRound_eq_int 300 _ (by norm_num)

/-! ## The authenticated endpoint `POST /api/optimize`
(`src/app/api/optimize/route.ts`) -/

/-- A visit of the Google Route Optimization response: `visit.shipmentIndex`
(absent for depot visits) and `visit.startTime`. -/
structure Visit where
  shipmentIndex : Option ℕ
  startTime : Option String
deriving Inhabited

/-- One route of the response — the handler reads only its `visits`. -/
structure RouteData where
  visits : List Visit

/-- The `metrics[0]` entry: `totalDistance` in meters and `totalDuration`, a
string of the form `"<N>s"` modelled here by its integer second count `N`
(the handler parses it with `parseInt(s.replace('s', ''))`). -/
structure MetricsData where
  totalDistance : Option ℝ
  totalDurationSecs : Option ℕ

/-- The parsed optimization response body `{routes, metrics}`. -/
structure OptResponseData where
  routes : List RouteData
  metrics : Option MetricsData

/-- The authenticated route's result shape: same `OptimizedRoute` TS interface,
but the totals are passed through from the upstream metrics (real-valued
distance, parsed integer duration) instead of being rounded locally. -/
structure AuthOptimizedRoute where
  optimizedDeliveries : List OptimizedDelivery
  totalDistanceMeters : ℝ
  totalDurationSeconds : ℕ
  estimatedCost : ℝ

/-- Responses of the authenticated endpoint. -/
inductive AuthResponse
  | badRequest (error : String)
  | serverError (error : String)
  | upstreamError
  | ok (route : AuthOptimizedRoute)

/-- Lines 193-204 of `src/app/api/optimize/route.ts`: keep the visits with a
defined `shipmentIndex` and map the `index`-th of them to the original
delivery found at its `shipmentIndex`, with 1-based `orderIndex` and the
visit's `startTime` as estimated arrival. (JS indexing out of range yields
`undefined`; the claims only exercise in-range indices, so out-of-range
lookup is modelled by a default element.) -/
def mapVisits (deliveries : List Delivery) (visits : List Visit) : List OptimizedDelivery :=
  ((visits.filter fun v => v.shipmentIndex.isSome).enum).map fun iv =>
    { delivery := deliveries.getD (iv.2.shipmentIndex.getD 0) default,
      orderIndex := iv.1 + 1,
      estimatedArrival := iv.2.startTime }

open Classical in
/-- `POST /api/optimize` (lines 21-256). `tokenResult` models the outcome of
the OAuth token exchange performed by `getGoogleCloudAccessToken()` at line
27 — note this fetch to the token endpoint happens before the request body is
parsed or validated; `optResult` models the optimization fetch (`none` = a
non-ok upstream status). The first component is the ordered trace of network
calls issued before the response is returned. -/
noncomputable def optimizePOST (body : OptimizeRequestBody)
    (tokenResult : Option String) (optResult : Option OptResponseData) :
    List NetCall × AuthResponse :=
  -- getGoogleCloudProjectId() (line 24) only reads configuration; modelled as configured.
  match tokenResult with
  | none => ([.tokenExchange], .serverError "Error al obtener access token")
  | some _ =>
    if body.deliveries.length = 0 then
      ([.tokenExchange], .badRequest "El array de entregas está vacío")
    else if 0 < (body.deliveries.filter fun d =>
        decide (falsyNum d.lat ∨ falsyNum d.lng)).length then
      ([.tokenExchange], .badRequest "Todas las entregas deben tener coordenadas (lat, lng)")
    else if body.warehouseLocation.lat = 0 ∨ body.warehouseLocation.lng = 0 then
      ([.tokenExchange], .badRequest "Se requiere la ubicación del almacén (warehouseLocation)")
    else
      match optResult with
      | none => ([.tokenExchange, .optimizeTours], .upstreamError)
      | some data =>
        match data.routes with
        | [] => ([.tokenExchange, .optimizeTours], .serverError "No se pudo optimizar la ruta")
        | route :: _ =>
          let optimizedDeliveries := mapVisits body.deliveries route.visits
          let totalDistanceMeters := (data.metrics.bind (·.totalDistance)).getD 0
          let totalDurationSeconds := (data.metrics.bind (·.totalDurationSecs)).getD 0
          ([.tokenExchange, .optimizeTours],
            .ok { optimizedDeliveries := optimizedDeliveries,
                  totalDistanceMeters := totalDistanceMeters,
                  totalDurationSeconds := totalDurationSeconds,
                  estimatedCost :=
                    calculateRouteCost totalDistanceMeters (totalDurationSeconds : ℝ) })

/-! ## The shipment model payload (`optimize` lines 74-140) -/

/-- `formatTimestamp` (lines 77-79): `date.toISOString().split('.')[0] + 'Z'`
truncates the ISO timestamp to whole seconds; on an epoch-millisecond value
this is integer division by 1000, yielding whole epoch seconds. -/
def formatTimestamp (ms : ℕ) : ℕ := ms / 1000

/-- One shipment of the optimization payload (waypoint, service duration,
time window in whole epoch seconds, label). -/
structure ShipmentModelEntry where
  latLng : Option ℝ × Option ℝ
  durationSecs : ℕ
  windowStart : ℕ
  windowEnd : ℕ
  label : String

/-- The optimization request model (shipments, single vehicle, global
window). -/
structure OptimizationPayload where
  shipments : List ShipmentModelEntry
  vehicleStart : Location
  vehicleEnd : Location
  costPerHourCfg : ℝ
  costPerKilometerCfg : ℝ
  globalStartTime : ℕ
  globalEndTime : ℕ

/-- Lines 81-140 of `src/app/api/optimize/route.ts`: `startMs` is the parsed
`body.startTime` (or the current time) in epoch milliseconds; `endDate` adds
`timeWindowHours` hours in milliseconds; both timestamps are truncated to
whole seconds by `formatTimestamp` before being placed in every shipment's
time window and in the global window. A shipment's label is the delivery's
`codigo`, or `Entrega-<position>` when the code is empty (JS falsy). -/
noncomputable def buildOptimizationPayload (deliveries : List Delivery) (wh : Location)
    (startMs : ℕ) : OptimizationPayload :=
  let endMs := startMs + timeWindowHours * 60 * 60 * 1000
  let startTime := formatTimestamp startMs
  let endTime := formatTimestamp endMs
  { shipments := deliveries.enum.map fun iv =>
      { latLng := (iv.2.lat, iv.2.lng),
        durationSecs := durationPerDelivery,
        windowStart := startTime,
        windowEnd := endTime,
        label := if iv.2.codigo ≠ "" then iv.2.codigo
                 else "Entrega-" ++ toString (iv.1 + 1) },
    vehicleStart := wh,
    vehicleEnd := wh,
    costPerHourCfg := costPerHour,
    costPerKilometerCfg := costPerKilometer,
    globalStartTime := startTime,
    globalEndTime := endTime }

/-! ## Claims about the endpoints -/

/-- Claim C1 counterexample: for the concrete empty-deliveries request, the
authenticated path does return the 400 validation error, but its network
trace already contains the OAuth token-exchange call — `getGoogleCloudAccessToken()`
at line 27 of `src/app/api/optimize/route.ts` performs a network fetch before
the body is parsed and validated, so a network call IS made before the
validation error is returned, contradicting the claim. -/
theorem C1_counterexample :
    optimizePOST { deliveries := [], warehouseLocation := ⟨1, 1⟩ } (some "token") none =
      ([NetCall.tokenExchange], .badRequest "El array de entregas está vacío") ∧
    ([NetCall.tokenExchange] : List NetCall) ≠ [] := by
  constructor
  · simp [optimizePOST]
  · simp

/-- Claim C1 amended: an empty deliveries list yields the HTTP 400 validation
error from both optimization paths; the nearest-neighbor path issues no
network call before the error, but the authenticated path has already
performed the OAuth token-exchange network call before validating (its call
trace is exactly `[tokenExchange]` when the exchange succeeds). -/
theorem C1_empty_deliveries (body : OptimizeRequestBody) (tok : String)
    (opt : Option OptResponseData) (h : body.deliveries = []) :
    optimizeSimplePOST body = ([], .badRequest "Se requiere un array de entregas no vacío") ∧
    optimizePOST body (some tok) opt =
      ([NetCall.tokenExchange], .badRequest "El array de entregas está vacío") := by
  constructor
  · simp [optimizeSimplePOST, h]
  · simp [optimizePOST, h]

/-- Witness for the amended C1 at a concrete empty request. -/
theorem C1_empty_deliveries_witness :
    ({ deliveries := [], warehouseLocation := ⟨1, 1⟩ } : OptimizeRequestBody).deliveries = [] ∧
    (optimizeSimplePOST { deliveries := [], warehouseLocation := ⟨1, 1⟩ } =
        ([], .badRequest "Se requiere un array de entregas no vacío") ∧
      optimizePOST { deliveries := [], warehouseLocation := ⟨1, 1⟩ } (some "t") none =
        ([NetCall.tokenExchange], .badRequest "El array de entregas está vacío")) :=
  ⟨rfl, C1_empty_deliveries _ "t" none rfl⟩

open Classical in
/-- Claim C10: in both endpoints a delivery whose `lat` or `lng` is exactly 0
is treated as missing coordinates (JS falsiness of `!d.lat`) and the request
is rejected with an HTTP 400 validation error; likewise a warehouse location
whose `lat` or `lng` is exactly 0, once the deliveries themselves pass the
coordinate check. -/
theorem C10_zero_coordinates (body : OptimizeRequestBody) (tok : String)
    (opt : Option OptResponseData) (hne : body.deliveries ≠ [])
    (hzero : (∃ d ∈ body.deliveries, d.lat = some 0 ∨ d.lng = some 0) ∨
      ((∀ d ∈ body.deliveries, ¬ falsyNum d.lat ∧ ¬ falsyNum d.lng) ∧
        (body.warehouseLocation.lat = 0 ∨ body.warehouseLocation.lng = 0))) :
    (∃ e, (optimizeSimplePOST body).2 = .badRequest e) ∧
    (∃ e, (optimizePOST body (some tok) opt).2 = .badRequest e) := by
  have hlen : ¬ (body.deliveries.length = 0) := by
    simpa [List.length_eq_zero] using hne
  rcases hzero with ⟨d, hd, hz⟩ | ⟨hok, hwh⟩
  · have hmem : d ∈ body.deliveries.filter
        (fun d => decide (falsyNum d.lat ∨ falsyNum d.lng)) := by
      refine List.mem_filter.mpr ⟨hd, ?_⟩
      apply decide_eq_true
      rcases hz with h | h
      · exact Or.inl (Or.inr h)
      · exact Or.inr (Or.inr h)
    have hpos : 0 < (body.deliveries.filter
        (fun d => decide (falsyNum d.lat ∨ falsyNum d.lng))).length :=
      List.length_pos.mpr (List.ne_nil_of_mem hmem)
    constructor
    · refine ⟨"Todas las entregas deben tener coordenadas (lat, lng)", ?_⟩
      simp only [optimizeSimplePOST]
      rw [if_neg hlen, if_pos hpos]
    · refine ⟨"Todas las entregas deben tener coordenadas (lat, lng)", ?_⟩
      simp only [optimizePOST]
      rw [if_neg hlen, if_pos hpos]
  · have hnilf : body.deliveries.filter
        (fun d => decide (falsyNum d.lat ∨ falsyNum d.lng)) = [] := by
      apply List.filter_eq_nil_iff.mpr
      intro d hd
      have h := hok d hd
      simp only [decide_eq_true_eq]
      exact not_or.mpr h
    have hnpos : ¬ (0 < (body.deliveries.filter
        (fun d => decide (falsyNum d.lat ∨ falsyNum d.lng))).length) := by
      rw [hnilf]
      simp
    constructor
    · refine ⟨"Se requiere la ubicación del almacén", ?_⟩
      simp only [optimizeSimplePOST]
      rw [if_neg hlen, if_neg hnpos, if_pos hwh]
    · refine ⟨"Se requiere la ubicación del almacén (warehouseLocation)", ?_⟩
      simp only [optimizePOST]
      rw [if_neg hlen, if_neg hnpos, if_pos hwh]

/-- Witness for C10: a delivery with `lat = 0` is rejected by both handlers. -/
theorem C10_zero_coordinates_witness :
    (({ deliveries := [⟨"A", "cl", some 0, some 1⟩], warehouseLocation := ⟨1, 1⟩ } :
        OptimizeRequestBody).deliveries ≠ []) ∧
    ((∃ d ∈ ({ deliveries := [⟨"A", "cl", some 0, some 1⟩], warehouseLocation := ⟨1, 1⟩ } :
          OptimizeRequestBody).deliveries, d.lat = some 0 ∨ d.lng = some 0) ∨
      ((∀ d ∈ ({ deliveries := [⟨"A", "cl", some 0, some 1⟩], warehouseLocation := ⟨1, 1⟩ } :
            OptimizeRequestBody).deliveries, ¬ falsyNum d.lat ∧ ¬ falsyNum d.lng) ∧
        (({ deliveries := [⟨"A", "cl", some 0, some 1⟩], warehouseLocation := ⟨1, 1⟩ } :
            OptimizeRequestBody).warehouseLocation.lat = 0 ∨
          ({ deliveries := [⟨"A", "cl", some 0, some 1⟩], warehouseLocation := ⟨1, 1⟩ } :
            OptimizeRequestBody).warehouseLocation.lng = 0))) ∧
    ((∃ e, (optimizeSimplePOST
        { deliveries := [⟨"A", "cl", some 0, some 1⟩], warehouseLocation := ⟨1, 1⟩ }).2 =
          .badRequest e) ∧
     (∃ e, (optimizePOST
        { deliveries := [⟨"A", "cl", some 0, some 1⟩], warehouseLocation := ⟨1, 1⟩ }
        (some "t") none).2 = .badRequest e)) :=
  ⟨by simp, Or.inl ⟨⟨"A", "cl", some 0, some 1⟩, by simp, Or.inl rfl⟩,
    C10_zero_coordinates _ "t" none (by simp)
      (Or.inl ⟨⟨"A", "cl", some 0, some 1⟩, by simp, Or.inl rfl⟩)⟩

/-- Claim C8: on the authenticated path, every shipment's time window and the
global window are `[startTime, startTime + 8 hours]`, and both payload
timestamps are the whole-second truncations of the underlying millisecond
timestamps (no fractional-second component). -/
theorem C8_time_windows (deliveries : List Delivery) (wh : Location) (startMs : ℕ) :
    (buildOptimizationPayload deliveries wh startMs).globalStartTime = startMs / 1000 ∧
    (buildOptimizationPayload deliveries wh startMs).globalEndTime =
      startMs / 1000 + 8 * 3600 ∧
    (∀ s ∈ (buildOptimizationPayload deliveries wh startMs).shipments,
      s.windowStart = (buildOptimizationPayload deliveries wh startMs).globalStartTime ∧
      s.windowEnd = (buildOptimizationPayload deliveries wh startMs).globalEndTime) ∧
    (buildOptimizationPayload deliveries wh startMs).globalStartTime * 1000 ≤ startMs ∧
    startMs < ((buildOptimizationPayload deliveries wh startMs).globalStartTime + 1) * 1000 ∧
    (buildOptimizationPayload deliveries wh startMs).globalEndTime * 1000 ≤
      startMs + 8 * 3600 * 1000 ∧
    startMs + 8 * 3600 * 1000 <
      ((buildOptimizationPayload deliveries wh startMs).globalEndTime + 1) * 1000 := by
  have hgs : (buildOptimizationPayload deliveries wh startMs).globalStartTime =
      startMs / 1000 := rfl
  have hge : (buildOptimizationPayload deliveries wh startMs).globalEndTime =
      (startMs + 8 * 3600 * 1000) / 1000 := rfl
  refine ⟨hgs, ?_, ?_, ?_, ?_, ?_, ?_⟩
  · rw [hge]; omega
  · intro s hs
    have hs' : s ∈ deliveries.enum.map fun iv =>
        ({ latLng := (iv.2.lat, iv.2.lng),
           durationSecs := durationPerDelivery,
           windowStart := formatTimestamp startMs,
           windowEnd := formatTimestamp (startMs + timeWindowHours * 60 * 60 * 1000),
           label := if iv.2.codigo ≠ "" then iv.2.codigo
                    else "Entrega-" ++ toString (iv.1 + 1) } : ShipmentModelEntry) := hs
    rcases List.mem_map.mp hs' with ⟨iv, _, rfl⟩
    exact ⟨rfl, rfl⟩
  · rw [hgs]; omega
  · rw [hgs]; omega
  · rw [hge]; omega
  · rw [hge]; omega

theorem enumFrom_map_fst_add_one (s : ℕ) :
    ∀ (L : List Visit), (List.enumFrom s L).map (fun iv => iv.1 + 1) =
      List.range' (s + 1) L.length := by
  intro L
  induction L generalizing s with
  | nil => simp
  | cons v rest ih =>
    simp only [List.enumFrom, List.map_cons, List.length_cons, List.range'_succ]
    exact congrArg _ (ih (s + 1))

/-- Claim C7: the mapped route has one output stop per visit with a defined
`shipmentIndex`; the `orderIndex` values are exactly `1..N` in order (no
duplicates); each output stop carries the original delivery looked up by the
visit's `shipmentIndex` in the input array and the visit's `startTime`; and
the concrete synthetic response whose visits reference the three inputs in
reverse order yields the stops in that reverse order with the original
fields (code, coordinates) intact. -/
theorem C7_response_mapping :
    (∀ (deliveries : List Delivery) (visits : List Visit),
      (mapVisits deliveries visits).length =
        (visits.filter fun v => v.shipmentIndex.isSome).length ∧
      (mapVisits deliveries visits).map (·.orderIndex) =
        List.range' 1 ((visits.filter fun v => v.shipmentIndex.isSome).length) ∧
      (∀ k, k < (visits.filter fun v => v.shipmentIndex.isSome).length →
        ((mapVisits deliveries visits).getD k default).delivery =
          deliveries.getD
            ((((visits.filter fun v => v.shipmentIndex.isSome).getD k
              default).shipmentIndex).getD 0) default ∧
        ((mapVisits deliveries visits).getD k default).estimatedArrival =
          ((visits.filter fun v => v.shipmentIndex.isSome).getD k default).startTime)) ∧
    (mapVisits
        [⟨"C1", "cl1", some 1, some 2⟩, ⟨"C2", "cl2", some 3, some 4⟩,
          ⟨"C3", "cl3", some 5, some 6⟩]
        [⟨some 2, some "t1"⟩, ⟨some 1, some "t2"⟩, ⟨some 0, some "t3"⟩]).map
        (fun o => (o.delivery.codigo, o.delivery.lat, o.delivery.lng, o.orderIndex)) =
      [("C3", some 5, some 6, 1), ("C2", some 3, some 4, 2), ("C1", some 1, some 2, 3)] := by
  constructor
  · intro deliveries visits
    refine ⟨?_, ?_, ?_⟩
    · simp [mapVisits]
    · have h := enumFrom_map_fst_add_one 0 (visits.filter fun v => v.shipmentIndex.isSome)
      simp only [mapVisits, List.map_map]
      simpa [List.enum, Function.comp] using h
    · intro k hk
      have hk1 : k < (mapVisits deliveries visits).length := by
        simpa [mapVisits] using hk
      have hk2 : k < ((visits.filter fun v => v.shipmentIndex.isSome).enum).length := by
        simpa [mapVisits] using hk
      rw [List.getD_eq_getElem _ _ hk1, List.getD_eq_getElem _ _ hk]
      constructor
      · simp [mapVisits, List.getElem_map, List.getElem_enum]
      · simp [mapVisits, List.getElem_map, List.getElem_enum]
  · rfl

/-- Witness for C7's conditional part at a concrete in-range input. -/
theorem C7_response_mapping_witness :
    (0 : ℕ) < (([⟨some 0, some "t"⟩] : List Visit).filter fun v => v.shipmentIndex.isSome).length ∧
    (((mapVisits [⟨"C1", "cl1", some 1, some 2⟩] [⟨some 0, some "t"⟩]).getD 0 default).delivery =
        ([⟨"C1", "cl1", some 1, some 2⟩] : List Delivery).getD
          (((([⟨some 0, some "t"⟩] : List Visit).filter fun v =>
            v.shipmentIndex.isSome).getD 0 default).shipmentIndex.getD 0) default ∧
      ((mapVisits [⟨"C1", "cl1", some 1, some 2⟩] [⟨some 0, some "t"⟩]).getD 0
          default).estimatedArrival =
        ((([⟨some 0, some "t"⟩] : List Visit).filter fun v =>
          v.shipmentIndex.isSome).getD 0 default).startTime) :=
  ⟨by simp, (C7_response_mapping.1 _ _).2.2 0 (by simp)⟩

/-! ## `createJWT` (`src/app/lib/google-maps.ts` lines 84-126)

Strings are modelled as `List Char`, byte strings as `List ℕ` (each < 256).
`Buffer.from(input).toString('base64')` is UTF-8 encoding followed by
standard base64; the `.replace` chains are character maps / filters. -/

/-- The standard base64 alphabet, index 0-63. -/
def b64chars : List Char :=
  ['A', 'B', 'C', 'D', 'E', 'F', 'G', 'H', 'I', 'J', 'K', 'L', 'M',
   'N', 'O', 'P', 'Q', 'R', 'S', 'T', 'U', 'V', 'W', 'X', 'Y', 'Z',
   'a', 'b', 'c', 'd', 'e', 'f', 'g', 'h', 'i', 'j', 'k', 'l', 'm',
   'n', 'o', 'p', 'q', 'r', 's', 't', 'u', 'v', 'w', 'x', 'y', 'z',
   '0', '1', '2', '3', '4', '5', '6', '7', '8', '9', '+', '/']

/-- The base64url alphabet: `+` and `/` replaced by `-` and `_`. -/
def b64urlChars : List Char :=
  ['A', 'B', 'C', 'D', 'E', 'F', 'G', 'H', 'I', 'J', 'K', 'L', 'M',
   'N', 'O', 'P', 'Q', 'R', 'S', 'T', 'U', 'V', 'W', 'X', 'Y', 'Z',
   'a', 'b', 'c', 'd', 'e', 'f', 'g', 'h', 'i', 'j', 'k', 'l', 'm',
   'n', 'o', 'p', 'q', 'r', 's', 't', 'u', 'v', 'w', 'x', 'y', 'z',
   '0', '1', '2', '3', '4', '5', '6', '7', '8', '9', '-', '_']

/-- Character of a 6-bit group. -/
def b64c (n : ℕ) : Char := b64chars.getD n 'A'

/-- Value of a base64 character. -/
def b64v (c : Char) : ℕ := b64chars.indexOf c

/-- RFC 4648 base64 encoding of a byte string, with `=` padding (what
`Buffer.toString('base64')` produces). -/
def base64encode : List ℕ → List Char
  | [] => []
  | [b1] => [b64c (b1 / 4), b64c (b1 % 4 * 16), '=', '=']
  | [b1, b2] => [b64c (b1 / 4), b64c (b1 % 4 * 16 + b2 / 16), b64c (b2 % 16 * 4), '=']
  | b1 :: b2 :: b3 :: rest =>
    b64c (b1 / 4) :: b64c (b1 % 4 * 16 + b2 / 16) :: b64c (b2 % 16 * 4 + b3 / 64) ::
      b64c (b3 % 64) :: base64encode rest

/-- Base64 decoding (padded input). -/
def base64decode : List Char → List ℕ
  | c1 :: c2 :: c3 :: c4 :: rest =>
    if c3 = '=' then [b64v c1 * 4 + b64v c2 / 16]
    else if c4 = '=' then
      [b64v c1 * 4 + b64v c2 / 16, b64v c2 % 16 * 16 + b64v c3 / 4]
    else
      (b64v c1 * 4 + b64v c2 / 16) :: (b64v c2 % 16 * 16 + b64v c3 / 4) ::
        (b64v c3 % 4 * 64 + b64v c4) :: base64decode rest
  | _ => []

/-- The `+` → `-` substitution of `.replace(/\+/g, '-')`. -/
def charPlus (c : Char) : Char := if c = '+' then '-' else c

/-- The `/` → `_` substitution of `.replace(/\//g, '_')`. -/
def charSlash (c : Char) : Char := if c = '/' then '_' else c

/-- `.replace(/\+/g, '-')` over a whole string. -/
def replacePlus (s : List Char) : List Char := s.map charPlus

/-- `.replace(/\//g, '_')` over a whole string. -/
def replaceSlash (s : List Char) : List Char := s.map charSlash

/-- `.replace(/=/g, '')`: drop every `=`. -/
def removeEq (s : List Char) : List Char := s.filter fun c => c ≠ '='

/-- The full substitution chain applied by `createJWT` to base64 output:
`+`→`-`, then `/`→`_`, then `=` removed. -/
def urlReplace (s : List Char) : List Char := removeEq (replaceSlash (replacePlus s))

/-- Inverse character substitution used for decoding. -/
def unreplaceChar (c : Char) : Char := if c = '-' then '+' else if c = '_' then '/' else c

/-- Restore `+`/`/` in a base64url string. -/
def unreplaceUrl (s : List Char) : List Char := s.map unreplaceChar

/-- Base64url decoding: restore the substituted characters, re-append the
stripped `=` padding, and decode standard base64. -/
def base64urlDecode (s : List Char) : List ℕ :=
  base64decode (unreplaceUrl s ++ List.replicate ((4 - s.length % 4) % 4) '=')

/-- UTF-8 encoding of one character (what `Buffer.from(string)` produces per
code point). -/
def utf8EncodeChar (c : Char) : List ℕ :=
  let n := c.toNat
  if n < 128 then [n]
  else if n < 2048 then [192 + n / 64, 128 + n % 64]
  else if n < 65536 then [224 + n / 4096, 128 + n / 64 % 64, 128 + n % 64]
  else [240 + n / 262144, 128 + n / 4096 % 64, 128 + n / 64 % 64, 128 + n % 64]

/-- UTF-8 encoding of a string. -/
def utf8Encode (s : List Char) : List ℕ := (s.map utf8EncodeChar).flatten

/-- Hexadecimal digit character (lowercase), for JSON `\u00xx` escapes. -/
def hexDigit (n : ℕ) : Char := if n < 10 then Char.ofNat (48 + n) else Char.ofNat (87 + n)

/-- `JSON.stringify` escaping of one character inside a string literal. -/
def jsonEscapeChar (c : Char) : List Char :=
  if c = '"' then ['\\', '"']
  else if c = '\\' then ['\\', '\\']
  else if c = Char.ofNat 8 then ['\\', 'b']
  else if c = Char.ofNat 9 then ['\\', 't']
  else if c = Char.ofNat 10 then ['\\', 'n']
  else if c = Char.ofNat 12 then ['\\', 'f']
  else if c = Char.ofNat 13 then ['\\', 'r']
  else if c.toNat < 32 then
    ['\\', 'u', '0', '0', hexDigit (c.toNat / 16), hexDigit (c.toNat % 16)]
  else [c]

/-- A JSON string literal with its surrounding quotes. -/
def jsonString (s : List Char) : List Char :=
  '"' :: (s.map jsonEscapeChar).flatten ++ ['"']

/-- The JWT payload object built by `createJWT` (lines 98-104). -/
structure JWTPayload where
  iss : List Char
  scope : List Char
  aud : List Char
  exp : ℕ
  iat : ℕ

/-- The fixed audience `https://oauth2.googleapis.com/token`. -/
def audienceChars : List Char := "https://oauth2.googleapis.com/token".toList

/-- `JSON.stringify` of the payload, with the object-literal key order
`iss, scope, aud, exp, iat`. -/
def serializePayload (p : JWTPayload) : List Char :=
  Char.ofNat 123 ::
    ("\"iss\":".toList ++ jsonString p.iss ++
     ",\"scope\":".toList ++ jsonString p.scope ++
     ",\"aud\":".toList ++ jsonString p.aud ++
     ",\"exp\":".toList ++ Nat.toDigits 10 p.exp ++
     ",\"iat\":".toList ++ Nat.toDigits 10 p.iat) ++
  [Char.ofNat 125]

/-- `JSON.stringify({alg: 'RS256', typ: 'JWT'})` (lines 92-95). -/
def headerJsonChars : List Char :=
  Char.ofNat 123 :: "\"alg\":\"RS256\",\"typ\":\"JWT\"".toList ++ [Char.ofNat 125]

/-- The `base64url` helper of `createJWT` (lines 107-112):
`Buffer.from(input).toString('base64')` then `+`→`-`, `/`→`_`, `=` removed. -/
def base64url (input : List Char) : List Char := urlReplace (base64encode (utf8Encode input))

/-- `createJWT` (lines 84-126). `nowMs` is `Date.now()` in epoch milliseconds;
`signatureBytes` models the raw RSA-SHA256 signature that Node's
`crypto.createSign('RSA-SHA256').sign(private_key, 'base64')` base64-encodes
— the crypto primitive lives outside the repository, so the signature is an
arbitrary byte string and `private_key` is consumed only by that external
signer. -/
def createJWT (client_email private_key scope : List Char) (nowMs : ℕ)
    (signatureBytes : List ℕ) : List Char :=
  let now := nowMs / 1000
  let expiry := now + 3600
  let payload : JWTPayload :=
    { iss := client_email, scope := scope, aud := audienceChars, exp := expiry, iat := now }
  let headerEncoded := base64url headerJsonChars
  let payloadEncoded := base64url (serializePayload payload)
  let signatureInput := headerEncoded ++ '.' :: payloadEncoded
  let signature := base64encode signatureBytes
  let signatureEncoded := removeEq (replaceSlash (replacePlus signature))
  signatureInput ++ '.' :: signatureEncoded

/-! ## Lemmas about base64 and the URL-safe substitutions -/

theorem b64chars_length : b64chars.length = 64 := rfl

theorem b64v_b64c_fin : ∀ m : Fin 64, b64v (b64c m.val) = m.val := by decide

theorem b64v_b64c_of_lt (n : ℕ) (h : n < 64) : b64v (b64c n) = n :=
  b64v_b64c_fin ⟨n, h⟩

theorem b64c_mem (n : ℕ) : b64c n ∈ b64chars := by
  unfold b64c
  rcases lt_or_ge n b64chars.length with h | h
  · rw [List.getD_eq_getElem _ _ h]
    exact List.getElem_mem h
  · rw [List.getD_eq_default _ _ h]
    decide

theorem b64c_ne_eq (n : ℕ) : b64c n ≠ '=' := by
  intro hc
  have hm := b64c_mem n
  rw [hc] at hm
  exact absurd hm (by decide)

theorem url_char_ok_fin :
    ∀ m : Fin 64, charSlash (charPlus (b64c m.val)) ≠ '=' ∧
      unreplaceChar (charSlash (charPlus (b64c m.val))) = b64c m.val := by decide

theorem url_char_ok (n : ℕ) :
    charSlash (charPlus (b64c n)) ≠ '=' ∧
      unreplaceChar (charSlash (charPlus (b64c n))) = b64c n := by
  rcases lt_or_ge n 64 with h | h
  · exact url_char_ok_fin ⟨n, h⟩
  · have hA : b64c n = 'A' := by
      unfold b64c
      exact List.getD_eq_default _ _ (by rw [b64chars_length]; omega)
    rw [hA]
    exact ⟨by decide, by decide⟩

theorem url_chars_mem : ∀ c ∈ b64chars, charSlash (charPlus c) ∈ b64urlChars := by decide

theorem url_char_eq_eq : charSlash (charPlus '=') = '=' := by decide

theorem base64encode_chars :
    ∀ (bs : List ℕ) c, c ∈ base64encode bs → c ∈ b64chars ∨ c = '=' := by
  intro bs
  induction bs using base64encode.induct with
  | case1 =>
    intro c hc
    simp [base64encode] at hc
  | case2 b1 =>
    intro c hc
    simp [base64encode] at hc
    rcases hc with h | h | h
    · exact Or.inl (h ▸ b64c_mem _)
    · exact Or.inl (h ▸ b64c_mem _)
    · exact Or.inr h
  | case3 b1 b2 =>
    intro c hc
    simp [base64encode] at hc
    rcases hc with h | h | h | h
    · exact Or.inl (h ▸ b64c_mem _)
    · exact Or.inl (h ▸ b64c_mem _)
    · exact Or.inl (h ▸ b64c_mem _)
    · exact Or.inr h
  | case4 b1 b2 b3 rest ih =>
    intro c hc
    simp only [base64encode, List.mem_cons] at hc
    rcases hc with h | h | h | h | h
    · exact Or.inl (h ▸ b64c_mem _)
    · exact Or.inl (h ▸ b64c_mem _)
    · exact Or.inl (h ▸ b64c_mem _)
    · exact Or.inl (h ▸ b64c_mem _)
    · exact ih c h

theorem urlReplace_chars (s : List Char) (hs : ∀ c ∈ s, c ∈ b64chars ∨ c = '=') :
    ∀ c ∈ urlReplace s, c ∈ b64urlChars := by
  intro c hc
  simp only [urlReplace, removeEq, replaceSlash, replacePlus, List.map_map,
    List.mem_filter, List.mem_map, Function.comp] at hc
  obtain ⟨⟨c0, hc0, rfl⟩, hne⟩ := hc
  rcases hs c0 hc0 with hmem | heq
  · exact url_chars_mem c0 hmem
  · subst heq
    have : charSlash (charPlus '=') = '=' := by decide
    rw [this] at hne
    simp at hne

theorem base64decode_cons4 (c1 c2 c3 c4 : Char) (rest : List Char)
    (h3 : c3 ≠ '=') (h4 : c4 ≠ '=') :
    base64decode (c1 :: c2 :: c3 :: c4 :: rest) =
      (b64v c1 * 4 + b64v c2 / 16) :: (b64v c2 % 16 * 16 + b64v c3 / 4) ::
        (b64v c3 % 4 * 64 + b64v c4) :: base64decode rest := by
  simp [base64decode, h3, h4]

theorem base64urlDecode_urlReplace :
    ∀ (bs : List ℕ), (∀ b ∈ bs, b < 256) →
      base64urlDecode (urlReplace (base64encode bs)) = bs := by
  intro bs
  induction bs using base64encode.induct with
  | case1 =>
    intro _
    rfl
  | case2 b1 =>
    intro h
    have hb1 : b1 < 256 := h b1 (by simp)
    have h1 := url_char_ok (b1 / 4)
    have h2 := url_char_ok (b1 % 4 * 16)
    have v1 := b64v_b64c_of_lt (b1 / 4) (by omega)
    have v2 := b64v_b64c_of_lt (b1 % 4 * 16) (by omega)
    have he : urlReplace (base64encode [b1]) =
        [charSlash (charPlus (b64c (b1 / 4))), charSlash (charPlus (b64c (b1 % 4 * 16)))] := by
      simp [base64encode, urlReplace, removeEq, replaceSlash, replacePlus, h1.1, h2.1,
        url_char_eq_eq]
    rw [he]
    simp [base64urlDecode, unreplaceUrl, h1.2, h2.2, base64decode, v1, v2,
      List.replicate_succ]
    omega
  | case3 b1 b2 =>
    intro h
    have hb1 : b1 < 256 := h b1 (by simp)
    have hb2 : b2 < 256 := h b2 (by simp)
    have h1 := url_char_ok (b1 / 4)
    have h2 := url_char_ok (b1 % 4 * 16 + b2 / 16)
    have h3 := url_char_ok (b2 % 16 * 4)
    have v1 := b64v_b64c_of_lt (b1 / 4) (by omega)
    have v2 := b64v_b64c_of_lt (b1 % 4 * 16 + b2 / 16) (by omega)
    have v3 := b64v_b64c_of_lt (b2 % 16 * 4) (by omega)
    have he : urlReplace (base64encode [b1, b2]) =
        [charSlash (charPlus (b64c (b1 / 4))),
         charSlash (charPlus (b64c (b1 % 4 * 16 + b2 / 16))),
         charSlash (charPlus (b64c (b2 % 16 * 4)))] := by
      simp [base64encode, urlReplace, removeEq, replaceSlash, replacePlus, h1.1, h2.1, h3.1,
        url_char_eq_eq]
    rw [he]
    simp [base64urlDecode, unreplaceUrl, h1.2, h2.2, h3.2, base64decode, v1, v2, v3,
      List.replicate_succ, b64c_ne_eq]
    constructor
    · omega
    · omega
  | case4 b1 b2 b3 rest ih =>
    intro h
    have hb1 : b1 < 256 := h b1 (by simp)
    have hb2 : b2 < 256 := h b2 (by simp)
    have hb3 : b3 < 256 := h b3 (by simp)
    have hrest : ∀ b ∈ rest, b < 256 := fun b hb => h b (by simp [hb])
    have h1 := url_char_ok (b1 / 4)
    have h2 := url_char_ok (b1 % 4 * 16 + b2 / 16)
    have h3 := url_char_ok (b2 % 16 * 4 + b3 / 64)
    have h4 := url_char_ok (b3 % 64)
    have v1 := b64v_b64c_of_lt (b1 / 4) (by omega)
    have v2 := b64v_b64c_of_lt (b1 % 4 * 16 + b2 / 16) (by omega)
    have v3 := b64v_b64c_of_lt (b2 % 16 * 4 + b3 / 64) (by omega)
    have v4 := b64v_b64c_of_lt (b3 % 64) (by omega)
    have he : urlReplace (base64encode (b1 :: b2 :: b3 :: rest)) =
        charSlash (charPlus (b64c (b1 / 4))) ::
        charSlash (charPlus (b64c (b1 % 4 * 16 + b2 / 16))) ::
        charSlash (charPlus (b64c (b2 % 16 * 4 + b3 / 64))) ::
        charSlash (charPlus (b64c (b3 % 64))) ::
        urlReplace (base64encode rest) := by
      simp [base64encode, urlReplace, removeEq, replaceSlash, replacePlus,
        h1.1, h2.1, h3.1, h4.1]
    rw [he]
    simp only [base64urlDecode, unreplaceUrl, List.map_cons, h1.2, h2.2, h3.2, h4.2,
      List.length_cons, List.cons_append]
    rw [base64decode_cons4 _ _ _ _ _ (b64c_ne_eq _) (b64c_ne_eq _)]
    rw [v1, v2, v3, v4]
    have hmod : (4 - ((urlReplace (base64encode rest)).length + 1 + 1 + 1 + 1) % 4) % 4 =
        (4 - (urlReplace (base64encode rest)).length % 4) % 4 := by omega
    rw [hmod]
    have ih' := ih hrest
    simp only [base64urlDecode, unreplaceUrl] at ih'
    rw [ih']
    simp only [List.cons.injEq]
    refine ⟨by omega, by omega, by omega, trivial⟩

/-! ## UTF-8 byte bounds -/

theorem char_toNat_lt (c : Char) : c.toNat < 1114112 := by
  have h : c.val.toNat < 55296 ∨ (57344 ≤ c.val.toNat ∧ c.val.toNat < 1114112) := c.valid
  have he : c.toNat = c.val.toNat := rfl
  omega

theorem utf8EncodeChar_lt (c : Char) : ∀ b ∈ utf8EncodeChar c, b < 256 := by
  intro b hb
  have h := char_toNat_lt c
  simp only [utf8EncodeChar] at hb
  split_ifs at hb with h1 h2 h3
  · simp at hb; omega
  · simp at hb; rcases hb with hb | hb <;> omega
  · simp at hb; rcases hb with hb | hb | hb <;> omega
  · simp at hb; rcases hb with hb | hb | hb | hb <;> omega

theorem utf8Encode_lt (s : List Char) : ∀ b ∈ utf8Encode s, b < 256 := by
  intro b hb
  simp only [utf8Encode, List.mem_flatten, List.mem_map] at hb
  obtain ⟨l, ⟨c, hc, rfl⟩, hbl⟩ := hb
  exact utf8EncodeChar_lt c b hbl

/-- Claim C3: for every credential, scope, current time, and (external) raw
signature, `createJWT` returns exactly three `.`-separated segments, each a
valid base64url string (alphabet `A-Z a-z 0-9 - _`, hence containing no `+`,
`/` or `=`, and no `.`); the first segment decodes to the UTF-8 bytes of
`JSON.stringify({alg: 'RS256', typ: 'JWT'})`, and the second decodes to the
serialization of a payload with `iss` = the client email, the given scope,
`aud = https://oauth2.googleapis.com/token`, and `exp - iat = 3600`. -/
theorem C3_createJWT (client_email private_key scope : List Char) (nowMs : ℕ)
    (signatureBytes : List ℕ) :
    ∃ s1 s2 s3,
      createJWT client_email private_key scope nowMs signatureBytes =
        s1 ++ '.' :: (s2 ++ '.' :: s3) ∧
      (createJWT client_email private_key scope nowMs signatureBytes).splitOn '.' =
        [s1, s2, s3] ∧
      (∀ c ∈ s1, c ∈ b64urlChars) ∧ (∀ c ∈ s2, c ∈ b64urlChars) ∧
      (∀ c ∈ s3, c ∈ b64urlChars) ∧
      '+' ∉ b64urlChars ∧ '/' ∉ b64urlChars ∧ '=' ∉ b64urlChars ∧ '.' ∉ b64urlChars ∧
      base64urlDecode s1 = utf8Encode headerJsonChars ∧
      (∃ p : JWTPayload, p.iss = client_email ∧ p.scope = scope ∧ p.aud = audienceChars ∧
        p.exp - p.iat = 3600 ∧ base64urlDecode s2 = utf8Encode (serializePayload p)) := by
  have hchars1 : ∀ c ∈ base64url headerJsonChars, c ∈ b64urlChars :=
    urlReplace_chars _ (base64encode_chars _)
  have hchars2 : ∀ c ∈ base64url (serializePayload
      { iss := client_email, scope := scope, aud := audienceChars,
        exp := nowMs / 1000 + 3600, iat := nowMs / 1000 }), c ∈ b64urlChars :=
    urlReplace_chars _ (base64encode_chars _)
  have hchars3 : ∀ c ∈ urlReplace (base64encode signatureBytes), c ∈ b64urlChars :=
    urlReplace_chars _ (base64encode_chars _)
  have hjwt : createJWT client_email private_key scope nowMs signatureBytes =
      base64url headerJsonChars ++ '.' ::
        (base64url (serializePayload
          { iss := client_email, scope := scope, aud := audienceChars,
            exp := nowMs / 1000 + 3600, iat := nowMs / 1000 }) ++ '.' ::
          urlReplace (base64encode signatureBytes)) := by
    simp [createJWT, base64url, urlReplace, List.append_assoc]
  have hdotchar : ('.' : Char) ∉ b64urlChars := by decide
  have hdot : ∀ l ∈ [base64url headerJsonChars,
      base64url (serializePayload
        { iss := client_email, scope := scope, aud := audienceChars,
          exp := nowMs / 1000 + 3600, iat := nowMs / 1000 }),
      urlReplace (base64encode signatureBytes)], '.' ∉ l := by
    intro l hl hmem
    simp only [List.mem_cons, List.not_mem_nil, or_false] at hl
    rcases hl with rfl | rfl | rfl
    · exact hdotchar (hchars1 _ hmem)
    · exact hdotchar (hchars2 _ hmem)
    · exact hdotchar (hchars3 _ hmem)
  have hinter : (['.'] : List Char).intercalate
      [base64url headerJsonChars,
        base64url (serializePayload
          { iss := client_email, scope := scope, aud := audienceChars,
            exp := nowMs / 1000 + 3600, iat := nowMs / 1000 }),
        urlReplace (base64encode signatureBytes)] =
      base64url headerJsonChars ++ '.' ::
        (base64url (serializePayload
          { iss := client_email, scope := scope, aud := audienceChars,
            exp := nowMs / 1000 + 3600, iat := nowMs / 1000 }) ++ '.' ::
          urlReplace (base64encode signatureBytes)) := by
    simp [List.intercalate]
  refine ⟨_, _, _, hjwt, ?_, hchars1, hchars2, hchars3, by decide, by decide, by decide,
    hdotchar, ?_, ?_⟩
  · rw [hjwt, ← hinter]
    exact List.splitOn_intercalate _ '.' hdot (by simp)
  · exact base64urlDecode_urlReplace _ (utf8Encode_lt _)
  · exact ⟨⟨client_email, scope, audienceChars, nowMs / 1000 + 3600, nowMs / 1000⟩,
      rfl, rfl, rfl, Nat.add_sub_cancel_left _ _, base64urlDecode_urlReplace _ (utf8Encode_lt _)⟩

end Tutoriaff
